import Mathlib

/-!
Verification development for the trajectory-data-tools repository.

The embedding covers:
* `update_parquet_meta` (src/update_parquet_meta.py): the header-merge step
  that replaces the `dataset_meta` entry of a Parquet schema-metadata map.
* `read_parquet` (src/data_tools.py): metadata decoding, the unconditional
  `pixel_corners` probe, and the row-to-track reconstruction loop.
* `analysis_movement_data` (src/data_tools.py): the two-pass movement
  classifier with the boundary-truncation filter.
* `plot_trajectory_spacetime_diagram` (src/data_tools.py): the per-track
  segment / lane-change-point emission loop.

Python dictionaries are modelled as association lists with Python's
update-or-append assignment semantics (`dictSet`) and first-match lookup
(`alookup`); dictionaries built by the code never hold duplicate keys, and
none of the lemmas below need a no-duplicate assumption.
-/

namespace TrajTools

/-- First-match lookup in an association list (Python `d[k]` / `k in d`). -/
def alookup {κ : Type*} {β : Type*} [DecidableEq κ] (k : κ) : List (κ × β) → Option β
  | [] => none
  | p :: rest => if p.1 = k then some p.2 else alookup k rest

/-- Python `d.get(k, default)`. -/
def dictGet {κ : Type*} {β : Type*} [DecidableEq κ] (k : κ) (d : List (κ × β)) (dflt : β) : β :=
  (alookup k d).getD dflt

/-- Python `d[k] = v`: replace the value in place when the key is present,
append the pair otherwise (insertion order preserved, as for a Python dict). -/
def dictSet {κ : Type*} {β : Type*} [DecidableEq κ] (d : List (κ × β)) (k : κ) (v : β) :
    List (κ × β) :=
  if (alookup k d).isSome then
    d.map (fun p => if p.1 = k then (k, v) else p)
  else
    d ++ [(k, v)]

theorem alookup_nil {κ : Type*} {β : Type*} [DecidableEq κ] (k : κ) :
    alookup k ([] : List (κ × β)) = none := rfl

theorem alookup_cons {κ : Type*} {β : Type*} [DecidableEq κ] (k : κ) (p : κ × β)
    (rest : List (κ × β)) :
    alookup k (p :: rest) = if p.1 = k then some p.2 else alookup k rest := rfl

theorem alookup_map_replace_self {κ : Type*} {β : Type*} [DecidableEq κ]
    (d : List (κ × β)) (k : κ) (v : β) :
    alookup k (d.map (fun p => if p.1 = k then (k, v) else p)) =
      (alookup k d).map (fun _ => v) := by
  induction d with
  | nil => rfl
  | cons p rest ih =>
    by_cases hpk : p.1 = k
    · simp [alookup, hpk]
    · simp [alookup, hpk, ih]

theorem alookup_map_replace_ne {κ : Type*} {β : Type*} [DecidableEq κ]
    (d : List (κ × β)) (k k' : κ) (v : β) (hne : k' ≠ k) :
    alookup k' (d.map (fun p => if p.1 = k then (k, v) else p)) = alookup k' d := by
  induction d with
  | nil => rfl
  | cons p rest ih =>
    by_cases hpk : p.1 = k
    · have hkk : ¬ (k = k') := fun h => hne h.symm
      simp [alookup, hpk, hkk, ih]
    · simp only [List.map_cons, if_neg hpk]
      rw [alookup_cons, alookup_cons, ih]

theorem alookup_append_single_self {κ : Type*} {β : Type*} [DecidableEq κ]
    (d : List (κ × β)) (k : κ) (v : β) :
    alookup k (d ++ [(k, v)]) = some ((alookup k d).getD v) := by
  induction d with
  | nil => simp [alookup]
  | cons p rest ih =>
    by_cases hpk : p.1 = k
    · simp [alookup, hpk]
    · simp [alookup, hpk, ih]

theorem alookup_append_single_ne {κ : Type*} {β : Type*} [DecidableEq κ]
    (d : List (κ × β)) (k k' : κ) (v : β) (hne : k' ≠ k) :
    alookup k' (d ++ [(k, v)]) = alookup k' d := by
  induction d with
  | nil => simp [alookup, Ne.symm hne]
  | cons p rest ih =>
    by_cases hpk : p.1 = k'
    · simp [alookup, hpk]
    · simp [alookup, hpk, ih]

theorem alookup_dictSet_self {κ : Type*} {β : Type*} [DecidableEq κ]
    (d : List (κ × β)) (k : κ) (v : β) :
    alookup k (dictSet d k v) = some v := by
  unfold dictSet
  split
  · rename_i hsome
    rw [alookup_map_replace_self]
    rcases Option.isSome_iff_exists.mp hsome with ⟨w, hw⟩
    rw [hw]
    rfl
  · rename_i hnone
    rw [alookup_append_single_self]
    rcases Option.not_isSome_iff_eq_none.mp hnone with hn
    rw [hn]
    rfl

theorem alookup_dictSet_ne {κ : Type*} {β : Type*} [DecidableEq κ]
    (d : List (κ × β)) (k k' : κ) (v : β) (hne : k' ≠ k) :
    alookup k' (dictSet d k v) = alookup k' d := by
  unfold dictSet
  split
  · exact alookup_map_replace_ne d k k' v hne
  · exact alookup_append_single_ne d k k' v hne

theorem dictGet_dictSet_self {κ : Type*} {β : Type*} [DecidableEq κ]
    (d : List (κ × β)) (k : κ) (v : β) (dflt : β) :
    dictGet k (dictSet d k v) dflt = v := by
  simp [dictGet, alookup_dictSet_self]

theorem dictGet_dictSet_ne {κ : Type*} {β : Type*} [DecidableEq κ]
    (d : List (κ × β)) (k k' : κ) (v : β) (dflt : β) (hne : k' ≠ k) :
    dictGet k' (dictSet d k v) dflt = dictGet k' d dflt := by
  simp [dictGet, alookup_dictSet_ne _ _ _ _ hne]

/-! ## Metadata codec and header merge (src/update_parquet_meta.py) -/

/-- JSON values, as produced by Python's `json.loads` on repository metadata. -/
inductive Json where
  | null : Json
  | bool (b : Bool) : Json
  | int (n : Int) : Json
  | str (s : String) : Json
  | arr (elems : List Json) : Json
  | obj (fields : List (String × Json)) : Json

/-- A value stored in the Parquet header map. `raw s` is a foreign byte
string; `metaBytes m` stands for `json.dumps(m).encode('utf-8')`. The
standard-library codec `json.loads ∘ utf-8 decode` is the inverse of that
injective encoding on JSON values, so it is modelled by the computable
partial inverse `decodeMetaBytes`. -/
inductive HVal where
  | raw (s : String) : HVal
  | metaBytes (m : Json) : HVal

/-- Model of `json.loads(value.decode('utf-8'))`, returning `none` on a parse
failure (a foreign byte string not produced by the encoder). -/
def decodeMetaBytes : HVal → Option Json
  | HVal.raw _ => none
  | HVal.metaBytes m => some m

/-- The header construction of `update_parquet_meta`
(src/update_parquet_meta.py lines 52-62):
`updated_meta = {**existing_meta, b'dataset_meta': new_meta_json_str.encode('utf-8')}`.
Python's `{**d, k: v}` builds a fresh dict (the input map is not mutated);
the model is pure by construction. -/
def update_parquet_meta_header (existing_meta : List (String × HVal)) (new_meta : Json) :
    List (String × HVal) :=
  dictSet existing_meta "dataset_meta" (HVal.metaBytes new_meta)

/-- The metadata decode step of `read_parquet` (src/data_tools.py lines 39-41):
look up the fixed key and parse its value. -/
def decode_dataset_meta (header : List (String × HVal)) : Option Json :=
  (alookup "dataset_meta" header).bind decodeMetaBytes

/-! ## Track reconstruction and read_parquet (src/data_tools.py lines 24-81) -/

/-- Python exceptions that `read_parquet` can raise in the modelled fragment. -/
inductive PyError where
  | indexError : PyError
  | keyError : PyError
  | jsonError : PyError
  | nameError : PyError
deriving DecidableEq

/-- The record loop of `read_parquet` (src/data_tools.py lines 65-74):
rows carrying a `vehicle_id` column are stored under that id with the id
column removed (`del record['vehicle_id']`), a duplicate id overwriting the
earlier entry; rows without the column are skipped by the
`if 'vehicle_id' in record` guard. -/
def reconstructStep {α : Type*} [DecidableEq α] (tracks : List (α × List (String × α)))
    (record : List (String × α)) : List (α × List (String × α)) :=
  match alookup "vehicle_id" record with
  | some vid => dictSet tracks vid (record.filter (fun p => p.1 != "vehicle_id"))
  | none => tracks

def reconstruct {α : Type*} [DecidableEq α] (records : List (List (String × α))) :
    List (α × List (String × α)) :=
  records.foldl reconstructStep []

/-- `read_parquet` (src/data_tools.py lines 24-81) on an in-memory table
`(rows, header)`. Mirrors the statement order of the source: the metadata
parse runs first (a malformed entry raises there); the diagnostic probe
`df_read.iloc[0]['pixel_corners']` then raises `IndexError` on an empty
table and `KeyError` when the column is absent; the final
`return restored_tracks, restored_meta` raises `NameError` when the header
had no `dataset_meta` key, because `restored_meta` is only assigned inside
the `if b'dataset_meta' in file_meta` branch. -/
def read_parquet {α : Type*} [DecidableEq α] (rows : List (List (String × α)))
    (header : List (String × HVal)) :
    Except PyError (List (α × List (String × α)) × Json) :=
  let metaStep : Except PyError (Option Json) :=
    match alookup "dataset_meta" header with
    | some hv =>
      match decodeMetaBytes hv with
      | some m => Except.ok (some m)
      | none => Except.error PyError.jsonError
    | none => Except.ok none
  match metaStep with
  | Except.error e => Except.error e
  | Except.ok metaOpt =>
    match rows with
    | [] => Except.error PyError.indexError
    | r0 :: _ =>
      if (alookup "pixel_corners" r0).isSome then
        match metaOpt with
        | some m => Except.ok (reconstruct rows, m)
        | none => Except.error PyError.nameError
      else
        Except.error PyError.keyError

/-! ## Movement classifier (src/data_tools.py lines 210-309) -/

/-- The two track fields read by `analysis_movement_data`. `none` models a
missing key as well as a stored `None` (both make `track.get(...)` return
`None`); the remaining track fields are never consulted by the classifier. -/
structure Track where
  frame_index : Option (List Int)
  lane_sequence : Option (List Int)
deriving DecidableEq

/-- The OD key `f"{start_lane}-{end_lane}"` (src/data_tools.py line 259). -/
def odKey (start_lane end_lane : Int) : String :=
  toString start_lane ++ "-" ++ toString end_lane

/-- The start frames collected by pass 1 (src/data_tools.py lines 219-224):
one entry per track whose `frame_index` is present, non-`None` and
non-empty. -/
def startFrames (td : List (Int × Track)) : List Int :=
  td.filterMap (fun p => p.2.frame_index.bind List.head?)

/-- The end frames collected by pass 1 (src/data_tools.py lines 219-224). -/
def endFrames (td : List (Int × Track)) : List Int :=
  td.filterMap (fun p => p.2.frame_index.bind List.getLast?)

/-- Computation of `global_min_frame = min(all_start_frames)` and
`global_max_frame = max(all_end_frames)` (src/data_tools.py lines 226-231);
`none` when no track has a usable `frame_index` (the early `return {}`). -/
def globalFrames (td : List (Int × Track)) : Option (Int × Int) :=
  match startFrames td, endFrames td with
  | a :: s, b :: e => some (s.foldl min a, e.foldl max b)
  | _, _ => none

/-- The mutable aggregates of `analysis_movement_data`
(src/data_tools.py lines 236-242). -/
structure AnalysisState where
  movement_counts : List (String × Nat)
  od_counts : List (String × Nat)
  od_vehicles : List (String × List Int)
  valid_movement_vehicles : Nat
  undefined_filtered_count : Nat
deriving DecidableEq

def initState : AnalysisState :=
  { movement_counts := []
    od_counts := []
    od_vehicles := []
    valid_movement_vehicles := 0
    undefined_filtered_count := 0 }

/-- The counting tail of the loop body (src/data_tools.py lines 282-292):
increment `movement_counts[movement_name]` and `od_counts[od_key]`, append
the vehicle id to `od_vehicles[od_key]`, and increment
`valid_movement_vehicles` when the movement is not `"Undefined"`. -/
def countTrack (st : AnalysisState) (vid : Int) (movement_name od_key : String) :
    AnalysisState :=
  { movement_counts :=
      dictSet st.movement_counts movement_name (dictGet movement_name st.movement_counts 0 + 1)
    od_counts := dictSet st.od_counts od_key (dictGet od_key st.od_counts 0 + 1)
    od_vehicles := dictSet st.od_vehicles od_key (dictGet od_key st.od_vehicles [] ++ [vid])
    valid_movement_vehicles :=
      if movement_name ≠ "Undefined" then st.valid_movement_vehicles + 1
      else st.valid_movement_vehicles
    undefined_filtered_count := st.undefined_filtered_count }

/-- One iteration of the classification loop (src/data_tools.py lines
244-292): skip on a missing/empty `lane_sequence`; build the OD key from
its first and last entries; look the key up, defaulting to `"Undefined"`;
for an `"Undefined"` movement require a non-empty `frame_index` and apply
the boundary filter `v_start < global_min_frame+3 or v_end >
global_max_frame-3`; otherwise count the track. -/
def stepTrack (mmap : List (String × String)) (gmin gmax : Int)
    (st : AnalysisState) (vid : Int) (t : Track) : AnalysisState :=
  match t.lane_sequence with
  | none => st
  | some [] => st
  | some (a :: rest) =>
    let od_key := odKey a (rest.getLastD a)
    let movement_name := (alookup od_key mmap).getD "Undefined"
    if movement_name = "Undefined" then
      match t.frame_index with
      | none => st
      | some [] => st
      | some (f :: fs) =>
        if f < gmin + 3 ∨ fs.getLastD f > gmax - 3 then
          { st with undefined_filtered_count := st.undefined_filtered_count + 1 }
        else
          countTrack st vid movement_name od_key
    else
      countTrack st vid movement_name od_key

/-- The function `analysis_movement_data` (src/data_tools.py lines 210-309) over the
track mapping in a given iteration order; `mmap` is the
`lane_sequence_to_movement_map` taken from the metadata. Returns the full
aggregate state (the Python function returns `movement_counts` and prints
the rest); `none` models the early `return {}` when no track has frames. -/
def analysis_movement_data (td : List (Int × Track)) (mmap : List (String × String)) :
    Option AnalysisState :=
  match globalFrames td with
  | none => none
  | some (gmin, gmax) =>
    some (td.foldl (fun st p => stepTrack mmap gmin gmax st p.1 p.2) initState)

/-- The three possible fates of a track in one loop iteration. -/
inductive TrackOutcome where
  | skipped : TrackOutcome
  | filtered : TrackOutcome
  | counted (movement od_key : String) : TrackOutcome
deriving DecidableEq

/-- The decision part of the loop body, separated from its effect on the
aggregates (see `stepTrack_eq_outcome`). -/
def classifyTrack (mmap : List (String × String)) (gmin gmax : Int) (t : Track) :
    TrackOutcome :=
  match t.lane_sequence with
  | none => TrackOutcome.skipped
  | some [] => TrackOutcome.skipped
  | some (a :: rest) =>
    let od_key := odKey a (rest.getLastD a)
    let movement_name := (alookup od_key mmap).getD "Undefined"
    if movement_name = "Undefined" then
      match t.frame_index with
      | none => TrackOutcome.skipped
      | some [] => TrackOutcome.skipped
      | some (f :: fs) =>
        if f < gmin + 3 ∨ fs.getLastD f > gmax - 3 then TrackOutcome.filtered
        else TrackOutcome.counted movement_name od_key
    else
      TrackOutcome.counted movement_name od_key

/-- Apply a `TrackOutcome` to the aggregate state. -/
def applyOutcome (st : AnalysisState) (vid : Int) : TrackOutcome → AnalysisState
  | TrackOutcome.skipped => st
  | TrackOutcome.filtered =>
    { st with undefined_filtered_count := st.undefined_filtered_count + 1 }
  | TrackOutcome.counted m od => countTrack st vid m od

theorem stepTrack_eq_outcome (mmap : List (String × String)) (gmin gmax : Int)
    (st : AnalysisState) (vid : Int) (t : Track) :
    stepTrack mmap gmin gmax st vid t = applyOutcome st vid (classifyTrack mmap gmin gmax t) := by
  unfold stepTrack classifyTrack
  cases hls : t.lane_sequence with
  | none => rfl
  | some ls =>
    cases ls with
    | nil => rfl
    | cons a rest =>
      dsimp only
      by_cases hm : (alookup (odKey a (rest.getLastD a)) mmap).getD "Undefined" = "Undefined"
      · rw [if_pos hm, if_pos hm]
        cases hfi : t.frame_index with
        | none => rfl
        | some fs =>
          cases fs with
          | nil => rfl
          | cons f fs =>
            dsimp only
            by_cases hc : f < gmin + 3 ∨ fs.getLastD f > gmax - 3
            · rw [if_pos hc, if_pos hc]; rfl
            · rw [if_neg hc, if_neg hc]; rfl
      · rw [if_neg hm, if_neg hm]; rfl

/-! ### Permutation invariance of the classifier aggregates -/

theorem foldl_min_le_init (s : List Int) : ∀ a : Int, s.foldl min a ≤ a := by
  induction s with
  | nil => intro a; exact le_refl a
  | cons b t ih =>
    intro a
    calc (b :: t).foldl min a = t.foldl min (min a b) := rfl
    _ ≤ min a b := ih (min a b)
    _ ≤ a := min_le_left a b

theorem foldl_min_mem (s : List Int) : ∀ a : Int, s.foldl min a ∈ a :: s := by
  induction s with
  | nil => intro a; simp
  | cons b t ih =>
    intro a
    have h := ih (min a b)
    rcases List.mem_cons.mp h with h1 | h1
    · rcases min_choice a b with h2 | h2
      · rw [show (b :: t).foldl min a = t.foldl min (min a b) from rfl, h1, h2]; simp
      · rw [show (b :: t).foldl min a = t.foldl min (min a b) from rfl, h1, h2]; simp
    · rw [show (b :: t).foldl min a = t.foldl min (min a b) from rfl]
      simp [List.mem_cons, h1]

theorem foldl_min_le (s : List Int) : ∀ a x : Int, x ∈ a :: s → s.foldl min a ≤ x := by
  induction s with
  | nil =>
    intro a x hx
    rcases List.mem_singleton.mp hx with h
    simp [h]
  | cons b t ih =>
    intro a x hx
    rcases List.mem_cons.mp hx with h1 | h1
    · calc (b :: t).foldl min a = t.foldl min (min a b) := rfl
      _ ≤ min a b := foldl_min_le_init t (min a b)
      _ ≤ a := min_le_left a b
      _ = x := h1.symm
    · rcases List.mem_cons.mp h1 with h2 | h2
      · calc (b :: t).foldl min a = t.foldl min (min a b) := rfl
        _ ≤ min a b := foldl_min_le_init t (min a b)
        _ ≤ b := min_le_right a b
        _ = x := h2.symm
      · exact ih (min a b) x (List.mem_cons_of_mem _ h2)

theorem le_foldl_max_init (s : List Int) : ∀ a : Int, a ≤ s.foldl max a := by
  induction s with
  | nil => intro a; exact le_refl a
  | cons b t ih =>
    intro a
    calc a ≤ max a b := le_max_left a b
    _ ≤ t.foldl max (max a b) := ih (max a b)
    _ = (b :: t).foldl max a := rfl

theorem foldl_max_mem (s : List Int) : ∀ a : Int, s.foldl max a ∈ a :: s := by
  induction s with
  | nil => intro a; simp
  | cons b t ih =>
    intro a
    have h := ih (max a b)
    rcases List.mem_cons.mp h with h1 | h1
    · rcases max_choice a b with h2 | h2
      · rw [show (b :: t).foldl max a = t.foldl max (max a b) from rfl, h1, h2]; simp
      · rw [show (b :: t).foldl max a = t.foldl max (max a b) from rfl, h1, h2]; simp
    · rw [show (b :: t).foldl max a = t.foldl max (max a b) from rfl]
      simp [List.mem_cons, h1]

theorem le_foldl_max (s : List Int) : ∀ a x : Int, x ∈ a :: s → x ≤ s.foldl max a := by
  induction s with
  | nil =>
    intro a x hx
    rcases List.mem_singleton.mp hx with h
    simp [h]
  | cons b t ih =>
    intro a x hx
    rcases List.mem_cons.mp hx with h1 | h1
    · calc x = a := h1
      _ ≤ max a b := le_max_left a b
      _ ≤ t.foldl max (max a b) := le_foldl_max_init t (max a b)
      _ = (b :: t).foldl max a := rfl
    · rcases List.mem_cons.mp h1 with h2 | h2
      · calc x = b := h2
        _ ≤ max a b := le_max_right a b
        _ ≤ t.foldl max (max a b) := le_foldl_max_init t (max a b)
        _ = (b :: t).foldl max a := rfl
      · exact ih (max a b) x (List.mem_cons_of_mem _ h2)

theorem foldl_min_perm (a b : Int) (s e : List Int) (h : (a :: s).Perm (b :: e)) :
    s.foldl min a = e.foldl min b := by
  apply le_antisymm
  · exact foldl_min_le s a _ (h.mem_iff.mpr (foldl_min_mem e b))
  · exact foldl_min_le e b _ (h.mem_iff.mp (foldl_min_mem s a))

theorem foldl_max_perm (a b : Int) (s e : List Int) (h : (a :: s).Perm (b :: e)) :
    s.foldl max a = e.foldl max b := by
  apply le_antisymm
  · exact le_foldl_max e b _ (h.mem_iff.mp (foldl_max_mem s a))
  · exact le_foldl_max s a _ (h.mem_iff.mpr (foldl_max_mem e b))

theorem globalFrames_perm (td₁ td₂ : List (Int × Track)) (h : td₁.Perm td₂) :
    globalFrames td₁ = globalFrames td₂ := by
  have hs : (startFrames td₁).Perm (startFrames td₂) := h.filterMap _
  have he : (endFrames td₁).Perm (endFrames td₂) := h.filterMap _
  unfold globalFrames
  cases h1 : startFrames td₁ with
  | nil =>
    have h1' : startFrames td₂ = [] := by
      rw [h1] at hs; exact hs.symm.eq_nil
    rw [h1']
  | cons a s =>
    cases h2 : endFrames td₁ with
    | nil =>
      have h2' : endFrames td₂ = [] := by
        rw [h2] at he; exact he.symm.eq_nil
      rw [h2']
      cases h1' : startFrames td₂ <;> rfl
    | cons b e =>
      rw [h1] at hs
      rw [h2] at he
      cases h1' : startFrames td₂ with
      | nil =>
        rw [h1'] at hs
        exact absurd hs.eq_nil (by simp)
      | cons a' s' =>
        cases h2' : endFrames td₂ with
        | nil =>
          rw [h2'] at he
          exact absurd he.eq_nil (by simp)
        | cons b' e' =>
          rw [h1'] at hs
          rw [h2'] at he
          dsimp only
          rw [foldl_min_perm a a' s s' hs, foldl_max_perm b b' e e' he]

/-- Whether an outcome increments `movement_counts[label]`. -/
def outcomeCountsLabel (o : TrackOutcome) (label : String) : Bool :=
  match o with
  | TrackOutcome.counted m _ => m == label
  | _ => false

/-- Whether an outcome increments `od_counts[od]`. -/
def outcomeCountsOd (o : TrackOutcome) (od : String) : Bool :=
  match o with
  | TrackOutcome.counted _ k => k == od
  | _ => false

/-- Whether an outcome increments `undefined_filtered_count`. -/
def outcomeFiltered (o : TrackOutcome) : Bool :=
  match o with
  | TrackOutcome.filtered => true
  | _ => false

theorem movement_counts_applyOutcome (st : AnalysisState) (vid : Int) (o : TrackOutcome)
    (label : String) :
    dictGet label (applyOutcome st vid o).movement_counts 0 =
      dictGet label st.movement_counts 0 + (if outcomeCountsLabel o label then 1 else 0) := by
  cases o with
  | skipped => simp [applyOutcome, outcomeCountsLabel]
  | filtered => simp [applyOutcome, outcomeCountsLabel]
  | counted m od =>
    by_cases hlm : label = m
    · subst hlm
      simp [applyOutcome, countTrack, outcomeCountsLabel, dictGet_dictSet_self]
    · have hmb : (m == label) = false := beq_eq_false_iff_ne.mpr (Ne.symm hlm)
      simp [applyOutcome, countTrack, outcomeCountsLabel, hmb,
        dictGet_dictSet_ne st.movement_counts m label _ 0 hlm]

theorem od_counts_applyOutcome (st : AnalysisState) (vid : Int) (o : TrackOutcome)
    (od : String) :
    dictGet od (applyOutcome st vid o).od_counts 0 =
      dictGet od st.od_counts 0 + (if outcomeCountsOd o od then 1 else 0) := by
  cases o with
  | skipped => simp [applyOutcome, outcomeCountsOd]
  | filtered => simp [applyOutcome, outcomeCountsOd]
  | counted m k =>
    by_cases hok : od = k
    · subst hok
      simp [applyOutcome, countTrack, outcomeCountsOd, dictGet_dictSet_self]
    · have hkb : (k == od) = false := beq_eq_false_iff_ne.mpr (Ne.symm hok)
      simp [applyOutcome, countTrack, outcomeCountsOd, hkb,
        dictGet_dictSet_ne st.od_counts k od _ 0 hok]

theorem filtered_count_applyOutcome (st : AnalysisState) (vid : Int) (o : TrackOutcome) :
    (applyOutcome st vid o).undefined_filtered_count =
      st.undefined_filtered_count + (if outcomeFiltered o then 1 else 0) := by
  cases o with
  | skipped => simp [applyOutcome, outcomeFiltered]
  | filtered => simp [applyOutcome, outcomeFiltered]
  | counted m od => simp [applyOutcome, countTrack, outcomeFiltered]

theorem foldl_movement_counts (mmap : List (String × String)) (gmin gmax : Int)
    (label : String) (td : List (Int × Track)) :
    ∀ st : AnalysisState,
      dictGet label (td.foldl (fun st p => stepTrack mmap gmin gmax st p.1 p.2) st).movement_counts 0 =
        dictGet label st.movement_counts 0 +
          td.countP (fun p => outcomeCountsLabel (classifyTrack mmap gmin gmax p.2) label) := by
  induction td with
  | nil => intro st; simp
  | cons p rest ih =>
    intro st
    rw [List.foldl_cons, ih, stepTrack_eq_outcome, movement_counts_applyOutcome,
      List.countP_cons]
    omega

theorem foldl_od_counts (mmap : List (String × String)) (gmin gmax : Int)
    (od : String) (td : List (Int × Track)) :
    ∀ st : AnalysisState,
      dictGet od (td.foldl (fun st p => stepTrack mmap gmin gmax st p.1 p.2) st).od_counts 0 =
        dictGet od st.od_counts 0 +
          td.countP (fun p => outcomeCountsOd (classifyTrack mmap gmin gmax p.2) od) := by
  induction td with
  | nil => intro st; simp
  | cons p rest ih =>
    intro st
    rw [List.foldl_cons, ih, stepTrack_eq_outcome, od_counts_applyOutcome, List.countP_cons]
    omega

theorem foldl_filtered_count (mmap : List (String × String)) (gmin gmax : Int)
    (td : List (Int × Track)) :
    ∀ st : AnalysisState,
      (td.foldl (fun st p => stepTrack mmap gmin gmax st p.1 p.2) st).undefined_filtered_count =
        st.undefined_filtered_count +
          td.countP (fun p => outcomeFiltered (classifyTrack mmap gmin gmax p.2)) := by
  induction td with
  | nil => intro st; simp
  | cons p rest ih =>
    intro st
    rw [List.foldl_cons, ih, stepTrack_eq_outcome, filtered_count_applyOutcome,
      List.countP_cons]
    omega

/-! ## Spacetime segment builder (src/data_tools.py lines 83-206)

Real arithmetic is modelled over `ℚ`: the branch structure of the loop
depends only on integer lane-id equalities, and the emitted coordinates are
the exact-arithmetic values of the floating-point expressions. -/

/-- The track fields read by the plotting loop
(src/data_tools.py lines 122-130). -/
structure PlotTrack where
  frame_index : List Int
  frenet_s : List ℚ
  frenet_s_speed : List ℚ
  lane_id : List Int
  vehicle_length : Option ℚ
deriving DecidableEq

/-- The sign `direction_sign` (src/data_tools.py lines 132-137): `-1` when the track
has more than one sample and the last `frenet_s` is below the first,
else `+1`. -/
def directionSign (s : List ℚ) : ℚ :=
  if 1 < s.length ∧ s.getLastD 0 < s.headD 0 then -1 else 1

/-- The head coordinate `head_s[i] = frenet_s[i] + direction_sign * vehicle_length / 2`
(src/data_tools.py line 142), with `vehicle_length` defaulting to `5.0`. -/
def headPos (t : PlotTrack) (i : Nat) : ℚ :=
  t.frenet_s.getD i 0 + directionSign t.frenet_s * (t.vehicle_length.getD 5 / 2)

/-- The timestamp `times[i] = frame_index[i] * frame_interval` (src/data_tools.py line 145). -/
def timeAt (frame_interval : ℚ) (t : PlotTrack) (i : Nat) : ℚ :=
  ((t.frame_index.getD i 0 : Int) : ℚ) * frame_interval

/-- The per-lane accumulators `lines`, `speeds`, `lc_points_x/y`
(src/data_tools.py lines 116-120), with the two point-coordinate lists
fused into one list of pairs. -/
structure SegOutput where
  lines : List ((ℚ × ℚ) × (ℚ × ℚ))
  speeds : List ℚ
  lc_points : List (ℚ × ℚ)
deriving DecidableEq

/-- The body of `for i in range(len(frames) - 1)`
(src/data_tools.py lines 148-170). -/
def segStep (frame_interval : ℚ) (target : Int) (t : PlotTrack)
    (out : SegOutput) (i : Nat) : SegOutput :=
  let curr := t.lane_id.getD i 0
  let next := t.lane_id.getD (i + 1) 0
  if curr = target ∧ next = target then
    { out with
      lines := out.lines ++
        [((timeAt frame_interval t i, headPos t i),
          (timeAt frame_interval t (i + 1), headPos t (i + 1)))]
      speeds := out.speeds ++ [|t.frenet_s_speed.getD i 0|] }
  else if curr = target ∧ ¬ next = target then
    { out with lc_points := out.lc_points ++ [(timeAt frame_interval t i, headPos t i)] }
  else if ¬ curr = target ∧ next = target then
    { out with
      lc_points := out.lc_points ++ [(timeAt frame_interval t (i + 1), headPos t (i + 1))] }
  else
    out

/-- The whole per-track loop of `plot_trajectory_spacetime_diagram` for one
target lane, starting from empty accumulators. -/
def plot_track_segments (frame_interval : ℚ) (target : Int) (t : PlotTrack) : SegOutput :=
  (List.range (t.frame_index.length - 1)).foldl (segStep frame_interval target t)
    { lines := [], speeds := [], lc_points := [] }

/-- Spec-side description (§4.4 of the spec): the segment emitted for the
consecutive pair `(i, i+1)`, present exactly when both samples are in the
target lane. -/
def segmentSpecAt (frame_interval : ℚ) (target : Int) (t : PlotTrack) (i : Nat) :
    Option ((ℚ × ℚ) × (ℚ × ℚ)) :=
  if t.lane_id.getD i 0 = target ∧ t.lane_id.getD (i + 1) 0 = target then
    some ((timeAt frame_interval t i, headPos t i),
      (timeAt frame_interval t (i + 1), headPos t (i + 1)))
  else none

/-- Spec-side description: the speed tag `abs(frenet_s_speed[i])` attached
to the segment for pair `(i, i+1)`. -/
def speedSpecAt (target : Int) (t : PlotTrack) (i : Nat) : Option ℚ :=
  if t.lane_id.getD i 0 = target ∧ t.lane_id.getD (i + 1) 0 = target then
    some |t.frenet_s_speed.getD i 0|
  else none

/-- Spec-side description: the lane-change point emitted for pair `(i, i+1)`
— a cut-out point at index `i` when only sample `i` is in the target lane, a
cut-in point at index `i+1` when only sample `i+1` is. -/
def lcPointSpecAt (frame_interval : ℚ) (target : Int) (t : PlotTrack) (i : Nat) :
    Option (ℚ × ℚ) :=
  if t.lane_id.getD i 0 = target ∧ ¬ t.lane_id.getD (i + 1) 0 = target then
    some (timeAt frame_interval t i, headPos t i)
  else if ¬ t.lane_id.getD i 0 = target ∧ t.lane_id.getD (i + 1) 0 = target then
    some (timeAt frame_interval t (i + 1), headPos t (i + 1))
  else none

theorem foldl_segStep (frame_interval : ℚ) (target : Int) (t : PlotTrack)
    (l : List Nat) :
    ∀ out : SegOutput,
      l.foldl (segStep frame_interval target t) out =
        { lines := out.lines ++ l.filterMap (segmentSpecAt frame_interval target t)
          speeds := out.speeds ++ l.filterMap (speedSpecAt target t)
          lc_points := out.lc_points ++ l.filterMap (lcPointSpecAt frame_interval target t) } := by
  induction l with
  | nil => intro out; simp
  | cons i l ih =>
    intro out
    rw [List.foldl_cons, ih]
    by_cases h1 : t.lane_id.getD i 0 = target ∧ t.lane_id.getD (i + 1) 0 = target
    · have h2 : ¬ (t.lane_id.getD i 0 = target ∧ ¬ t.lane_id.getD (i + 1) 0 = target) := by
        intro hx; exact hx.2 h1.2
      have h3 : ¬ (¬ t.lane_id.getD i 0 = target ∧ t.lane_id.getD (i + 1) 0 = target) := by
        intro hx; exact hx.1 h1.1
      simp only [List.getD_eq_getElem?_getD] at h1 h2 h3
      simp [segStep, segmentSpecAt, speedSpecAt, lcPointSpecAt, h1, h2, h3]
    · by_cases h2 : t.lane_id.getD i 0 = target ∧ ¬ t.lane_id.getD (i + 1) 0 = target
      · have h3 : ¬ (¬ t.lane_id.getD i 0 = target ∧ t.lane_id.getD (i + 1) 0 = target) := by
          intro hx; exact hx.1 h2.1
        simp only [List.getD_eq_getElem?_getD] at h1 h2 h3
        simp [segStep, segmentSpecAt, speedSpecAt, lcPointSpecAt, h1, h2, h3]
      · by_cases h3 : ¬ t.lane_id.getD i 0 = target ∧ t.lane_id.getD (i + 1) 0 = target
        · simp only [List.getD_eq_getElem?_getD] at h1 h2 h3
          simp [segStep, segmentSpecAt, speedSpecAt, lcPointSpecAt, h1, h2, h3]
        · simp only [List.getD_eq_getElem?_getD] at h1 h2 h3
          simp [segStep, segmentSpecAt, speedSpecAt, lcPointSpecAt, h1, h2, h3]

/-! ## Claim theorems -/

/-- C3: the metadata merge preserves every header key other than
`dataset_meta` byte-for-byte. The model is pure by construction, matching
the source, which builds a fresh dict `{**existing_meta, ...}` and never
mutates `existing_meta`. -/
theorem merge_preserves_foreign_keys (existing_meta : List (String × HVal))
    (new_meta : Json) (k : String) (hk : k ≠ "dataset_meta") :
    alookup k (update_parquet_meta_header existing_meta new_meta) =
      alookup k existing_meta :=
  alookup_dictSet_ne existing_meta "dataset_meta" k (HVal.metaBytes new_meta) hk

theorem merge_preserves_foreign_keys_witness :
    alookup "created_by" (update_parquet_meta_header
        [("created_by", HVal.raw "parquet-cpp")] Json.null) =
      some (HVal.raw "parquet-cpp") :=
  (merge_preserves_foreign_keys [("created_by", HVal.raw "parquet-cpp")] Json.null
    "created_by" (by decide)).trans rfl

/-- C4: decoding the `dataset_meta` entry of a merged header yields the
merged object, whether or not the key was already present in the header. -/
theorem dataset_meta_roundtrip (existing_meta : List (String × HVal)) (new_meta : Json) :
    decode_dataset_meta (update_parquet_meta_header existing_meta new_meta) =
      some new_meta := by
  unfold decode_dataset_meta update_parquet_meta_header
  rw [alookup_dictSet_self]
  rfl

/-- C5: on a table whose header has no `dataset_meta` key (and whose first
row does carry `pixel_corners`, so the probe passes), `read_parquet` does
not return the reconstructed tracks: the final
`return restored_tracks, restored_meta` raises `NameError` because
`restored_meta` was never assigned. This contradicts the non-fatal
"no embedded metadata" behaviour the code's own `[Warning]` message and the
spec describe. -/
theorem read_parquet_missing_meta_nameerror :
    read_parquet [[("pixel_corners", (0 : Int)), ("vehicle_id", (1 : Int))]] [] =
      Except.error PyError.nameError := rfl

/-- C6 counterexample: a row without the `vehicle_id` column does not make
reconstruction fail — it is silently dropped, and the resulting mapping
omits it (here only the second row survives). -/
theorem reconstruct_missing_id_skipped_counterexample :
    reconstruct [[("speed", (3 : Int))], [("vehicle_id", (7 : Int)), ("speed", (4 : Int))]] =
      [((7 : Int), [("speed", (4 : Int))])] := rfl

/-- C6 amended: looking up any identifier in the reconstructed mapping
returns the field map (all columns except `vehicle_id`) of the last row
carrying that identifier, and `none` if no row carries it — so rows lacking
`vehicle_id` are silently skipped rather than raising, and duplicate
identifiers resolve last-row-wins. -/
theorem reconstruct_lookup_last_wins {α : Type*} [DecidableEq α]
    (records : List (List (String × α))) (vid : α) :
    alookup vid (reconstruct records) =
      (records.reverse.find? (fun rec => decide (alookup "vehicle_id" rec = some vid))).map
        (fun rec => rec.filter (fun p => p.1 != "vehicle_id")) := by
  induction records using List.reverseRecOn with
  | nil => rfl
  | append_singleton l r ih =>
    rw [show reconstruct (l ++ [r]) = reconstructStep (reconstruct l) r from by
      unfold reconstruct; rw [List.foldl_append]; rfl]
    rw [List.reverse_append]
    simp only [List.reverse_singleton, List.singleton_append]
    cases hr : alookup "vehicle_id" r with
    | some v =>
      by_cases hv : v = vid
      · subst hv
        rw [List.find?_cons_of_pos _ (by simp [hr])]
        unfold reconstructStep
        rw [hr]
        dsimp only
        rw [alookup_dictSet_self]
        rfl
      · rw [List.find?_cons_of_neg _ (by simp [hr, hv])]
        unfold reconstructStep
        rw [hr]
        dsimp only
        rw [alookup_dictSet_ne _ _ _ _ (fun h => hv h.symm)]
        exact ih
    | none =>
      rw [List.find?_cons_of_neg _ (by simp [hr])]
      unfold reconstructStep
      rw [hr]
      exact ih

theorem reconstruct_lookup_last_wins_witness :
    alookup (1 : Int)
        (reconstruct [[("vehicle_id", (1 : Int)), ("x", 2)], [("vehicle_id", 1), ("x", 3)]]) =
      some [("x", (3 : Int))] :=
  (reconstruct_lookup_last_wins
    [[("vehicle_id", (1 : Int)), ("x", 2)], [("vehicle_id", 1), ("x", 3)]] 1).trans (by decide)

/-- C9: `read_parquet` fails on every table with zero rows, or whose first
row (hence, in a columnar table, every row) lacks the `pixel_corners`
column, because `df_read.iloc[0]['pixel_corners']` is inspected
unconditionally. -/
theorem read_parquet_fails_without_pixel_corners {α : Type*} [DecidableEq α]
    (rows : List (List (String × α))) (header : List (String × HVal))
    (h : rows = [] ∨ ∃ r rest, rows = r :: rest ∧ alookup "pixel_corners" r = none) :
    ∃ e, read_parquet rows header = Except.error e := by
  rcases h with hnil | ⟨r, rest, hrr, hpc⟩
  · subst hnil
    cases hh : alookup "dataset_meta" header with
    | none => exact ⟨PyError.indexError, by simp [read_parquet, hh]⟩
    | some hv =>
      cases hd : decodeMetaBytes hv with
      | none => exact ⟨PyError.jsonError, by simp [read_parquet, hh, hd]⟩
      | some m => exact ⟨PyError.indexError, by simp [read_parquet, hh, hd]⟩
  · subst hrr
    cases hh : alookup "dataset_meta" header with
    | none => exact ⟨PyError.keyError, by simp [read_parquet, hh, hpc]⟩
    | some hv =>
      cases hd : decodeMetaBytes hv with
      | none => exact ⟨PyError.jsonError, by simp [read_parquet, hh, hd]⟩
      | some m => exact ⟨PyError.keyError, by simp [read_parquet, hh, hd, hpc]⟩

theorem read_parquet_fails_without_pixel_corners_witness :
    ∃ e, read_parquet ([] : List (List (String × Int))) ([] : List (String × HVal)) =
      Except.error e :=
  read_parquet_fails_without_pixel_corners [] [] (Or.inl rfl)

/-- C1: a track from the dataset whose OD key is unmapped and whose
`frame_index` is non-empty is boundary-filtered (only
`undefined_filtered_count` incremented, `movement_counts`/`od_counts`/
`od_vehicles` untouched) exactly when its first frame is below
`global_min_frame + 3` or its last frame is above `global_max_frame - 3`,
the globals being computed by `globalFrames`; otherwise it is counted under
the label `"Undefined"`. -/
theorem undefined_boundary_filter_iff (mmap : List (String × String))
    (td : List (Int × Track)) (vid : Int) (t : Track) (gmin gmax a f : Int)
    (rest fs : List Int) (st : AnalysisState)
    (_hmem : (vid, t) ∈ td)
    (_hg : globalFrames td = some (gmin, gmax))
    (hls : t.lane_sequence = some (a :: rest))
    (hod : alookup (odKey a (rest.getLastD a)) mmap = none)
    (hfi : t.frame_index = some (f :: fs)) :
    stepTrack mmap gmin gmax st vid t =
      if f < gmin + 3 ∨ fs.getLastD f > gmax - 3 then
        { st with undefined_filtered_count := st.undefined_filtered_count + 1 }
      else
        countTrack st vid "Undefined" (odKey a (rest.getLastD a)) := by
  unfold stepTrack
  rw [hls]
  dsimp only
  rw [hod]
  dsimp only [Option.getD]
  rw [if_pos rfl, hfi]

theorem undefined_boundary_filter_iff_witness :
    stepTrack [] 10 20 initState 1 ⟨some [10, 20], some [1, 2]⟩ =
      { initState with undefined_filtered_count := initState.undefined_filtered_count + 1 } :=
  (undefined_boundary_filter_iff [] [(1, ⟨some [10, 20], some [1, 2]⟩)] 1
    ⟨some [10, 20], some [1, 2]⟩ 10 20 1 10 [2] [20] initState
    (by decide) (by decide) rfl rfl rfl).trans (by decide)

/-- C2 counterexample: a track whose OD key `"1-2"` IS present in
`lane_sequence_to_movement_map` — mapped to the label `"Undefined"` — and
which touches the global frame boundary is boundary-filtered, not counted:
the classifier branches on the movement label, not on key membership. -/
theorem mapped_undefined_filtered_counterexample :
    analysis_movement_data [(1, ⟨some [0, 1], some [1, 2]⟩)] [("1-2", "Undefined")] =
      some { movement_counts := [], od_counts := [], od_vehicles := [],
             valid_movement_vehicles := 0, undefined_filtered_count := 1 } := by decide

/-- C2 amended: a track whose OD key is mapped is counted under the mapped
label and never boundary-filtered provided the mapped label is not
`"Undefined"` — regardless of `frame_index`; when the map's value IS the
string `"Undefined"`, the track is treated exactly as if its key were
unmapped (the boundary filter applies). -/
theorem mapped_label_counting (mmap : List (String × String)) (gmin gmax : Int)
    (st : AnalysisState) (vid a : Int) (rest : List Int) (t : Track) (m : String)
    (hls : t.lane_sequence = some (a :: rest))
    (hod : alookup (odKey a (rest.getLastD a)) mmap = some m) :
    (m ≠ "Undefined" →
      stepTrack mmap gmin gmax st vid t = countTrack st vid m (odKey a (rest.getLastD a)))
    ∧ (m = "Undefined" →
      stepTrack mmap gmin gmax st vid t = stepTrack [] gmin gmax st vid t) := by
  constructor
  · intro hm
    unfold stepTrack
    rw [hls]
    dsimp only
    rw [hod]
    dsimp only [Option.getD]
    rw [if_neg hm]
  · intro hm
    subst hm
    unfold stepTrack
    rw [hls]
    dsimp only
    rw [hod]
    dsimp only [Option.getD, alookup]

theorem mapped_label_counting_witness :
    stepTrack [("1-2", "Left")] 0 100 initState 7 ⟨some [0, 1], some [1, 2]⟩ =
      countTrack initState 7 "Left" (odKey 1 ([2].getLastD 1)) :=
  (mapped_label_counting [("1-2", "Left")] 0 100 initState 7 1 [2]
    ⟨some [0, 1], some [1, 2]⟩ "Left" rfl (by decide)).1 (by decide)

/-- C10: when the OD key is mapped to a label other than `"Undefined"`, the
track is counted whatever its `frame_index` holds — absent/`None`
(modelled `none`), empty, or boundary-touching — because `frame_index` is
consulted only on the `"Undefined"` branch. -/
theorem mapped_movement_ignores_frame_index (mmap : List (String × String))
    (gmin gmax : Int) (st : AnalysisState) (vid a : Int) (rest : List Int)
    (t : Track) (m : String)
    (hls : t.lane_sequence = some (a :: rest))
    (hod : alookup (odKey a (rest.getLastD a)) mmap = some m)
    (hm : m ≠ "Undefined") (fi : Option (List Int)) :
    stepTrack mmap gmin gmax st vid { t with frame_index := fi } =
      countTrack st vid m (odKey a (rest.getLastD a)) := by
  unfold stepTrack
  rw [show ({ t with frame_index := fi } : Track).lane_sequence = t.lane_sequence from rfl, hls]
  dsimp only
  rw [hod]
  dsimp only [Option.getD]
  rw [if_neg hm]

theorem mapped_movement_ignores_frame_index_witness :
    stepTrack [("1-2", "Left")] 0 0 initState 3
        { (⟨some [9], some [1, 2]⟩ : Track) with frame_index := none } =
      countTrack initState 3 "Left" (odKey 1 ([2].getLastD 1)) :=
  mapped_movement_ignores_frame_index [("1-2", "Left")] 0 0 initState 3 1 [2]
    ⟨some [9], some [1, 2]⟩ "Left" rfl (by decide) (by decide) none

/-- C7: for a fixed movement map, permuting the iteration order of the
track mapping leaves `movement_counts` (pointwise), `od_counts`
(pointwise) and `undefined_filtered_count` unchanged. -/
theorem classifier_order_independent (mmap : List (String × String))
    (td₁ td₂ : List (Int × Track)) (h : td₁.Perm td₂) :
    (∀ label : String,
      (analysis_movement_data td₁ mmap).map (fun st => dictGet label st.movement_counts 0) =
        (analysis_movement_data td₂ mmap).map (fun st => dictGet label st.movement_counts 0))
    ∧ (∀ od : String,
      (analysis_movement_data td₁ mmap).map (fun st => dictGet od st.od_counts 0) =
        (analysis_movement_data td₂ mmap).map (fun st => dictGet od st.od_counts 0))
    ∧ (analysis_movement_data td₁ mmap).map AnalysisState.undefined_filtered_count =
        (analysis_movement_data td₂ mmap).map AnalysisState.undefined_filtered_count := by
  have hg := globalFrames_perm td₁ td₂ h
  unfold analysis_movement_data
  rw [← hg]
  cases hgf : globalFrames td₁ with
  | none => exact ⟨fun label => rfl, fun od => rfl, rfl⟩
  | some pr =>
    obtain ⟨gmin, gmax⟩ := pr
    dsimp only [Option.map]
    refine ⟨fun label => ?_, fun od => ?_, ?_⟩
    · rw [Option.some.injEq, foldl_movement_counts mmap gmin gmax label td₁ initState,
        foldl_movement_counts mmap gmin gmax label td₂ initState, h.countP_eq]
    · rw [Option.some.injEq, foldl_od_counts mmap gmin gmax od td₁ initState,
        foldl_od_counts mmap gmin gmax od td₂ initState, h.countP_eq]
    · rw [Option.some.injEq, foldl_filtered_count mmap gmin gmax td₁ initState,
        foldl_filtered_count mmap gmin gmax td₂ initState, h.countP_eq]

theorem classifier_order_independent_witness :
    (analysis_movement_data [(1, ⟨some [0, 5], some [1, 2]⟩), (2, ⟨some [3, 9], some [3, 4]⟩)]
        [("1-2", "Left")]).map (fun st => dictGet "Left" st.movement_counts 0) =
      (analysis_movement_data [(2, ⟨some [3, 9], some [3, 4]⟩), (1, ⟨some [0, 5], some [1, 2]⟩)]
        [("1-2", "Left")]).map (fun st => dictGet "Left" st.movement_counts 0) :=
  (classifier_order_independent [("1-2", "Left")]
    [(1, ⟨some [0, 5], some [1, 2]⟩), (2, ⟨some [3, 9], some [3, 4]⟩)]
    [(2, ⟨some [3, 9], some [3, 4]⟩), (1, ⟨some [0, 5], some [1, 2]⟩)]
    (by decide)).1 "Left"

/-- The example track of the spec: `lane_id = [1,1,2,2,1]`. -/
def examplePlotTrack : PlotTrack :=
  { frame_index := [0, 1, 2, 3, 4]
    frenet_s := [0, 1, 2, 3, 4]
    frenet_s_speed := [1, 1, 1, 1, 1]
    lane_id := [1, 1, 2, 2, 1]
    vehicle_length := none }

/-- C8: for every track and target lane the builder's output is exactly the
per-pair emission map — a segment (with speed `abs(frenet_s_speed[i])`)
when both samples of the pair are in the target lane, a cut-out point at
index `i` when only sample `i` is, a cut-in point at index `i+1` when only
sample `i+1` is, nothing otherwise; on the spec's example track with
`lane_id = [1,1,2,2,1]` and target lane `1` this yields exactly one
segment, one cut-out point `(1, 7/2)` and one cut-in point `(4, 13/2)`. -/
theorem plot_track_segments_pairwise :
    (∀ (frame_interval : ℚ) (target : Int) (t : PlotTrack),
      plot_track_segments frame_interval target t =
        { lines := (List.range (t.frame_index.length - 1)).filterMap
            (segmentSpecAt frame_interval target t)
          speeds := (List.range (t.frame_index.length - 1)).filterMap (speedSpecAt target t)
          lc_points := (List.range (t.frame_index.length - 1)).filterMap
            (lcPointSpecAt frame_interval target t) })
    ∧ plot_track_segments 1 1 examplePlotTrack =
        { lines := [((0, 5/2), (1, 7/2))]
          speeds := [1]
          lc_points := [(1, 7/2), (4, 13/2)] } := by
  constructor
  · intro frame_interval target t
    unfold plot_track_segments
    rw [foldl_segStep]
    simp
  · unfold plot_track_segments
    rw [foldl_segStep]
    have hrange : List.range (examplePlotTrack.frame_index.length - 1) = [0, 1, 2, 3] := rfl
    have hs0 : segmentSpecAt 1 1 examplePlotTrack 0 = some ((0, 5/2), (1, 7/2)) := by
      norm_num [segmentSpecAt, examplePlotTrack, timeAt, headPos, directionSign]
    have hs1 : segmentSpecAt 1 1 examplePlotTrack 1 = none := by
      norm_num [segmentSpecAt, examplePlotTrack]
    have hs2 : segmentSpecAt 1 1 examplePlotTrack 2 = none := by
      norm_num [segmentSpecAt, examplePlotTrack]
    have hs3 : segmentSpecAt 1 1 examplePlotTrack 3 = none := by
      norm_num [segmentSpecAt, examplePlotTrack]
    have hv0 : speedSpecAt 1 examplePlotTrack 0 = some 1 := by
      norm_num [speedSpecAt, examplePlotTrack]
    have hv1 : speedSpecAt 1 examplePlotTrack 1 = none := by
      norm_num [speedSpecAt, examplePlotTrack]
    have hv2 : speedSpecAt 1 examplePlotTrack 2 = none := by
      norm_num [speedSpecAt, examplePlotTrack]
    have hv3 : speedSpecAt 1 examplePlotTrack 3 = none := by
      norm_num [speedSpecAt, examplePlotTrack]
    have hl0 : lcPointSpecAt 1 1 examplePlotTrack 0 = none := by
      norm_num [lcPointSpecAt, examplePlotTrack]
    have hl1 : lcPointSpecAt 1 1 examplePlotTrack 1 = some (1, 7/2) := by
      norm_num [lcPointSpecAt, examplePlotTrack, timeAt, headPos, directionSign]
    have hl2 : lcPointSpecAt 1 1 examplePlotTrack 2 = none := by
      norm_num [lcPointSpecAt, examplePlotTrack]
    have hl3 : lcPointSpecAt 1 1 examplePlotTrack 3 = some (4, 13/2) := by
      norm_num [lcPointSpecAt, examplePlotTrack, timeAt, headPos, directionSign]
    rw [hrange]
    simp only [List.filterMap_cons, List.filterMap_nil, List.nil_append, hs0, hs1, hs2, hs3,
      hv0, hv1, hv2, hv3, hl0, hl1, hl2, hl3]

end TrajTools
